import Mathlib

/-!
Verification development for the trading-signal core
(`ict_analysis.py`, `entry_systems.py`, `risk_management.py`).

Modelling conventions.  Prices, volumes and all float quantities are
rationals.  A pandas/NumPy float that may be NaN (or infinite) is modelled
as `Option ℚ`, with `none` standing for "not an ordinary number": rolling
aggregates over too-short windows, means of empty slices, and float
divisions whose denominator is zero all produce `none`, and every
comparison against `none` is `false`, exactly as NaN comparisons are
`False` in Python.  A market series is the ordered list of its bars;
`lastN n` is `DataFrame.tail(n)`, and negative positional indexing
`iloc[-k]` becomes indexing at `length - k`.  Timestamps are not modelled:
no property below depends on them.  Functions that can raise in Python
(key lookup on a missing asset, float division by zero on plain floats,
element access on an empty series) return `none` on those inputs.
-/

attribute [local semireducible] Rat.sub Rat.add Rat.mul Rat.inv

/-- Float-or-NaN comparison `a < b`: false unless both are ordinary numbers. -/
def flt (a b : Option ℚ) : Bool :=
  match a, b with
  | some x, some y => decide (x < y)
  | _, _ => false

/-- Float-or-NaN comparison `a ≤ b`: false unless both are ordinary numbers. -/
def fle (a b : Option ℚ) : Bool :=
  match a, b with
  | some x, some y => decide (x ≤ y)
  | _, _ => false

/-- NaN-propagating addition. -/
def fadd (a b : Option ℚ) : Option ℚ :=
  match a, b with
  | some x, some y => some (x + y)
  | _, _ => none

/-- NaN-propagating subtraction. -/
def fsub (a b : Option ℚ) : Option ℚ :=
  match a, b with
  | some x, some y => some (x - y)
  | _, _ => none

/-- NaN-propagating multiplication. -/
def fmul (a b : Option ℚ) : Option ℚ :=
  match a, b with
  | some x, some y => some (x * y)
  | _, _ => none

/-- Float division: NaN operands propagate, and a zero denominator yields
`none` (NumPy's inf/NaN, which every subsequent comparison treats as false). -/
def fdiv (a b : Option ℚ) : Option ℚ :=
  match a, b with
  | some x, some y => if y = 0 then none else some (x / y)
  | _, _ => none

/-- The last `n` elements of a list: `DataFrame.tail(n)`. -/
def lastN (n : ℕ) (l : List α) : List α :=
  l.drop (l.length - n)

/-- Maximum of a series (`Series.max()`): `none` on an empty series. -/
def listMax : List ℚ → Option ℚ
  | [] => none
  | x :: xs => some (xs.foldl max x)

/-- Minimum of a series (`Series.min()`): `none` on an empty series. -/
def listMin : List ℚ → Option ℚ
  | [] => none
  | x :: xs => some (xs.foldl min x)

/-- Mean of a series (`Series.mean()`): NaN (`none`) on an empty series. -/
def fmean (l : List ℚ) : Option ℚ :=
  if l.length = 0 then none else some (l.sum / l.length)

/-- Last entry of `Series.rolling(window=w).mean()`: the mean of the last
`w` values when at least `w` exist, NaN (`none`) otherwise. -/
def rollingMeanLast (w : ℕ) (l : List ℚ) : Option ℚ :=
  if l.length < w then none else fmean (lastN w l)

/-- One OHLCV bar of a market series (`open` is a Lean keyword, hence `open_`). -/
structure Bar where
  open_ : ℚ
  high : ℚ
  low : ℚ
  close : ℚ
  volume : ℚ
deriving DecidableEq, Repr

/-- An entry candidate as returned by the entry systems (the `timestamp`
key is not modelled).  `stop_loss` involves the ATR, which may be NaN, so
it is an `Option`. -/
structure Candidate where
  system : String
  direction : String
  entry_price : ℚ
  stop_loss : Option ℚ
  take_profit : ℚ
  invalidation_point : ℚ
deriving DecidableEq, Repr

/-- The quarterly levels consumed by `determine_bias` and
`market_maker_model`.  `get_quarterly_levels` reads the wall clock, so its
output is treated as an opaque input here; only the four fields the
modelled code reads are kept. -/
structure QuarterlyLevels where
  q2_high : ℚ
  q2_low : ℚ
  q3_high : ℚ
  q3_low : ℚ
deriving DecidableEq, Repr

/-- ICTAnalysis.calculate_sma_slope: value of `sma.iloc[-1]`, the rolling
mean of close at the last bar. -/
def smaLastOf (closes : List ℚ) (period : ℕ) : Option ℚ :=
  rollingMeanLast period closes

/-- ICTAnalysis.calculate_sma_slope: value of `sma.iloc[-2]`, the rolling
mean of close at the second-to-last bar. -/
def smaPrevOf (closes : List ℚ) (period : ℕ) : Option ℚ :=
  rollingMeanLast period closes.dropLast

/-- ICTAnalysis.calculate_sma_slope: `(sma.iloc[-1] - sma.iloc[-2]) /
sma.iloc[-2]` when the series has at least 2 rows, else 0.  The rolling
SMA keeps the series length, so `len(sma) < 2` is a length check on the
series itself. -/
def calculate_sma_slope (bars : List Bar) (period : ℕ) : Option ℚ :=
  let closes := bars.map Bar.close
  if closes.length < 2 then some 0
  else fdiv (fsub (smaLastOf closes period) (smaPrevOf closes period)) (smaPrevOf closes period)

/-- ICTAnalysis.find_liquidity_pools inner loop: the cluster size at anchor
`i`, namely 1 (the anchor itself) plus the number of later values within
relative `threshold` of the anchor's value (`abs(v[j] - v[i]) / v[i] <= threshold`). -/
def countFrom (ps : List ℚ) (threshold : ℚ) (i : ℕ) : ℕ :=
  1 + ((ps.drop (i + 1)).filter (fun x => decide (|x - ps.getD i 0| / ps.getD i 0 ≤ threshold))).length

/-- ICTAnalysis.find_liquidity_pools: the recorded clusters over a price
series — for each anchor `i` in `range(len - 2)`, record `(price, count)`
when the cluster size reaches 3. -/
def clusterLevels (ps : List ℚ) (threshold : ℚ) : List (ℚ × ℕ) :=
  (List.range (ps.length - 2)).filterMap fun i =>
    let c := countFrom ps threshold i
    if 3 ≤ c then some (ps.getD i 0, c) else none

/-- Result of ICTAnalysis.find_liquidity_pools: stop-loss clusters on highs
and lows (price and count; timestamps unmodelled) plus the premium /
equilibrium / discount PD-array levels (NaN on an empty window). -/
structure LiquidityPools where
  highs : List (ℚ × ℕ)
  lows : List (ℚ × ℕ)
  premium : Option ℚ
  equilibrium : Option ℚ
  discount : Option ℚ
deriving DecidableEq, Repr

/-- ICTAnalysis.find_liquidity_pools over the last `lookback` bars. -/
def find_liquidity_pools (bars : List Bar) (lookback : ℕ) (threshold : ℚ) : LiquidityPools :=
  let r := lastN lookback bars
  let hs := r.map Bar.high
  let ls := r.map Bar.low
  let pr := fsub (listMax hs) (listMin ls)
  let prem := fsub (listMax hs) (fmul (some (1/4)) pr)
  let disc := fadd (listMin ls) (fmul (some (1/4)) pr)
  ⟨clusterLevels hs threshold, clusterLevels ls threshold,
   prem, fmul (some (1/2)) (fadd prem disc), disc⟩

/-- ICTAnalysis.determine_bias, with the wall-clock-dependent quarterly
levels passed in as a value. -/
def determine_bias (bars : List Bar) (lv : QuarterlyLevels) : String :=
  let cur := (bars.map Bar.close).getLast?
  let slope := calculate_sma_slope bars 20
  if flt (some lv.q2_high) cur && flt (some 0) slope then ("bullish")
  else if flt cur (some lv.q3_low) && flt slope (some 0) then ("bearish")
  else ("neutral")

/-- EntrySystems.calculate_atr, true-range tail: for every bar after the
first, `max(high - low, |high - prevClose|, |low - prevClose|)` (pandas
`concat(...).max(axis=1)` skips the NaNs coming from `close.shift(1)` only
on the first row). -/
def trueRangesGo (prev : Bar) : List Bar → List ℚ
  | [] => []
  | b :: rest =>
      max (b.high - b.low) (max |b.high - prev.close| |b.low - prev.close|) :: trueRangesGo b rest

/-- True range per bar; on the first bar `close.shift(1)` is NaN and the
row maximum falls back to `high - low`. -/
def trueRanges : List Bar → List ℚ
  | [] => []
  | b :: rest => (b.high - b.low) :: trueRangesGo b rest

/-- EntrySystems.calculate_atr (also RiskManagement.calculate_atr, same
body): rolling 20-bar mean of the true range, evaluated at the last bar;
NaN while fewer than 20 bars exist. -/
def calculate_atr (bars : List Bar) : Option ℚ :=
  rollingMeanLast 20 (trueRanges bars)

/-- EntrySystems.is_volatile helper: the valid values of
`high.rolling(20).max() - low.rolling(20).min()` (one per full 20-bar
window); `Series.mean()` skips the NaN head, so only these enter the mean. -/
def rollRangeVals (bars : List Bar) : List ℚ :=
  (List.range (bars.length + 1 - 20)).map fun k =>
    let w := (bars.drop k).take 20
    ((listMax (w.map Bar.high)).getD 0) - ((listMin (w.map Bar.low)).getD 0)

/-- EntrySystems.is_volatile: current ATR above the mean rolling 20-bar
high-low range (false whenever either side is NaN, as in Python). -/
def is_volatile (bars : List Bar) : Bool :=
  flt (fmean (rollRangeVals bars)) (calculate_atr bars)

/-- EntrySystems.find_nearest_liquidity_pool: among the cluster levels plus
the premium (up) or discount (down) PD-array bound, the nearest level
strictly beyond `price`; defaults to `price * 1.02` / `price * 0.98`.  A
NaN PD bound is filtered out by the strict comparison, as in Python. -/
def find_nearest_liquidity_pool (bars : List Bar) (price : ℚ) (direction : String) : ℚ :=
  let pools := find_liquidity_pools bars 20 (5/1000)
  if direction = ("up") then
    let levels := pools.highs.map Prod.fst ++ pools.premium.toList
    match listMin (levels.filter (fun x => decide (price < x))) with
    | some m => m
    | none => price * (102/100)
  else
    let levels := pools.lows.map Prod.fst ++ pools.discount.toList
    match listMax (levels.filter (fun x => decide (x < price))) with
    | some m => m
    | none => price * (98/100)

/-- EntrySystems.turtle_soup, bullish gate over the 22-bar tail `r`:
`r.low.iloc[-3] < r.low.iloc[-23:-3].min()` (the slice clamps to the first
19 rows of the tail), the last bar closes above its open, and last-bar
volume exceeds twice the tail's mean volume. -/
def bullishTurtle (bars : List Bar) : Bool :=
  let r := lastN 22 bars
  let lows := r.map Bar.low
  flt (lows.get? (r.length - 3)) (listMin (lows.take (r.length - 3)))
  && (match r.getLast? with
      | some b => decide (b.open_ < b.close)
      | none => false)
  && (match r.getLast?, fmean (r.map Bar.volume) with
      | some b, some av => decide (2 * av < b.volume)
      | _, _ => false)

/-- EntrySystems.turtle_soup, bearish gate: mirror of the bullish one on
highs, with the last bar closing below its open. -/
def bearishTurtle (bars : List Bar) : Bool :=
  let r := lastN 22 bars
  let highs := r.map Bar.high
  flt (listMax (highs.take (r.length - 3))) (highs.get? (r.length - 3))
  && (match r.getLast? with
      | some b => decide (b.close < b.open_)
      | none => false)
  && (match r.getLast?, fmean (r.map Bar.volume) with
      | some b, some av => decide (2 * av < b.volume)
      | _, _ => false)

/-- EntrySystems.turtle_soup: Turtle Soup detection on the 22-bar tail.
With fewer than 3 bars the source's `iloc[-3]` would fail; that branch is
the explicit `none` guard (unreachable from `generate_entries`, which only
calls this under `is_volatile`, hence with at least 20 bars). -/
def turtle_soup (bars : List Bar) : Option Candidate :=
  let r := lastN 22 bars
  if r.length < 3 then none
  else if bullishTurtle bars then
    match r.getLast? with
    | some b =>
        some ⟨("turtle_soup"), ("long"), b.close,
              fsub ((r.map Bar.low).get? (r.length - 3)) (fmul (some (3/2)) (calculate_atr bars)),
              find_nearest_liquidity_pool bars b.close ("up"),
              (r.map Bar.low).getD (r.length - 3) 0⟩
    | none => none
  else if bearishTurtle bars then
    match r.getLast? with
    | some b =>
        some ⟨("turtle_soup"), ("short"), b.close,
              fadd ((r.map Bar.high).get? (r.length - 3)) (fmul (some (3/2)) (calculate_atr bars)),
              find_nearest_liquidity_pool bars b.close ("down"),
              (r.map Bar.high).getD (r.length - 3) 0⟩
    | none => none
  else none

/-- EntrySystems.crt consolidation measure: `(max high - min low) / min
low` over the last 6 bars (NaN on an empty tail or a zero denominator). -/
def priceRangeOf (bars : List Bar) : Option ℚ :=
  let r := lastN 6 bars
  fdiv (fsub (listMax (r.map Bar.high)) (listMin (r.map Bar.low))) (listMin (r.map Bar.low))

/-- EntrySystems.crt volume measure: 6-bar mean volume over the 20-bar
rolling mean volume at the last bar (NaN while fewer than 20 bars exist). -/
def volumeFracOf (bars : List Bar) : Option ℚ :=
  fdiv (fmean ((lastN 6 bars).map Bar.volume)) (rollingMeanLast 20 (bars.map Bar.volume))

/-- EntrySystems.crt gate: `price_range <= 0.005 and volume_ratio < 0.5`. -/
def crtGate (bars : List Bar) : Bool :=
  fle (priceRangeOf bars) (some (5/1000)) && flt (volumeFracOf bars) (some (1/2))

/-- EntrySystems.crt: CRT (consolidation breakout) detection over the last
6 bars.  On an empty series the source's rolling-mean access fails before
returning; every such path yields no candidate here as well. -/
def crt (bars : List Bar) : Option Candidate :=
  let r := lastN 6 bars
  let atr := calculate_atr bars
  if crtGate bars then
    match listMax (r.map Bar.high), listMin (r.map Bar.low), r.getLast? with
    | some range_high, some range_low, some b =>
      if range_high < b.close then
        some ⟨("crt"), ("long"), b.close,
              fsub (some range_low) (fmul (some (3/2)) atr),
              find_nearest_liquidity_pool bars b.close ("up"),
              (range_high + range_low) / 2⟩
      else if b.close < range_low then
        some ⟨("crt"), ("short"), b.close,
              fadd (some range_high) (fmul (some (3/2)) atr),
              find_nearest_liquidity_pool bars b.close ("down"),
              (range_high + range_low) / 2⟩
      else none
    | _, _, _ => none
  else none

/-- EntrySystems.market_maker_model, with the wall-clock-dependent
quarterly levels passed in as a value.  On an empty series the source's
`iloc[-1]` fails; here the `getLast?` match returns `none`. -/
def market_maker_model (bars : List Bar) (lv : QuarterlyLevels) : Option Candidate :=
  let r := lastN 3 bars
  let avgVol := fmean (r.map Bar.volume)
  let atr := calculate_atr bars
  let bias := determine_bias bars lv
  match r.getLast? with
  | none => none
  | some b =>
    if bias = ("bullish") && decide (b.low ≤ lv.q2_low) && decide (b.open_ < b.close)
        && flt (fmul (some (3/2)) avgVol) (some b.volume) then
      some ⟨("market_maker"), ("long"), b.close,
            fsub (some lv.q2_low) (fmul (some (3/2)) atr),
            find_nearest_liquidity_pool bars b.close ("up"), lv.q2_low⟩
    else if bias = ("bearish") && decide (lv.q3_high ≤ b.high) && decide (b.close < b.open_)
        && flt (fmul (some (3/2)) avgVol) (some b.volume) then
      some ⟨("market_maker"), ("short"), b.close,
            fadd (some lv.q3_high) (fmul (some (3/2)) atr),
            find_nearest_liquidity_pool bars b.close ("down"), lv.q3_high⟩
    else none

/-- EntrySystems.generate_entries: the dict of fired systems in insertion
order — Turtle Soup only under `is_volatile`, then CRT, then Market Maker.
On an empty series the source fails inside the detectors before building
the dict (`none`). -/
def generate_entries (bars : List Bar) (lv : QuarterlyLevels) : Option (List (String × Candidate)) :=
  if bars.isEmpty then none
  else some
    ((if is_volatile bars then (turtle_soup bars).toList.map (fun c => (("turtle_soup"), c)) else [])
     ++ (crt bars).toList.map (fun c => (("crt"), c))
     ++ (market_maker_model bars lv).toList.map (fun c => (("market_maker"), c)))

/-- RiskManagement.pip_values: the fixed per-asset pip-value table. -/
def pip_values : List (String × ℚ) :=
  [(("XAUUSD"), 1/100), (("NASDAQ"), 1)]

/-- RiskManagement default account balance. -/
def default_balance : ℚ := 10000

/-- RiskManagement default per-trade risk percent. -/
def default_risk_percent : ℚ := 1/100

/-- Sizing result of RiskManagement.calculate_position_size. -/
structure PositionSizeResult where
  position_size : ℚ
  risk_amount : ℚ
  stop_loss_distance : ℚ
  pip_value : ℚ
deriving DecidableEq, Repr

/-- RiskManagement.calculate_position_size: risk percent clamped at 0.02,
`risk_amount = balance * risk_percent`, `position_size = risk_amount /
(stop_loss_distance * pip_value)`.  An unknown asset raises a key error in
the source, and a zero stop distance raises a float division-by-zero:
both are `none`. -/
def calculate_position_size (asset : String) (entry_price stop_loss balance risk_percent : ℚ) :
    Option PositionSizeResult :=
  let rp := min risk_percent (2/100)
  let d := |entry_price - stop_loss|
  match List.lookup asset pip_values with
  | none => none
  | some pv =>
    if d * pv = 0 then none
    else some ⟨(balance * rp) / (d * pv), balance * rp, d, pv⟩

/-- RiskManagement.calculate_trailing_stop: once profit reaches 1×ATR,
breakeven-or-better (`max(entry, current - atr)` for long, mirrored for
short); otherwise the static 1.5×ATR initial stop. -/
def calculate_trailing_stop (entry_price current_price : ℚ) (direction : String) (atr : ℚ) : ℚ :=
  if direction = ("long") then
    if current_price - entry_price ≥ atr then max entry_price (current_price - atr)
    else entry_price - (3/2) * atr
  else
    if entry_price - current_price ≥ atr then min entry_price (current_price + atr)
    else entry_price + (3/2) * atr

/-- A past trade record as consumed by
RiskManagement.calculate_portfolio_metrics: each field is optional, a dict
key that may be absent. -/
structure Signal where
  result : Option String
  risk_amount : Option ℚ
  risk_reward : Option ℚ
  entry_price : Option ℚ
  stop_loss : Option ℚ
  take_profit : Option ℚ
deriving DecidableEq, Repr

/-- RiskManagement.calculate_portfolio_metrics equity replay: walk the
signals in order from the running equity, credit `risk_amount *
risk_reward` (default 1) on a win and debit `risk_amount` otherwise,
recording the equity after each signal that carries both `result` and
`risk_amount`. -/
def equityCurveAux (cur : ℚ) : List Signal → List ℚ
  | [] => []
  | s :: rest =>
    match s.result, s.risk_amount with
    | some res, some ra =>
      let nxt := if res = ("win") then cur + ra * (s.risk_reward.getD 1) else cur - ra
      nxt :: equityCurveAux nxt rest
    | _, _ => equityCurveAux cur rest

/-- The replayed equity curve, starting from `start`. -/
def equityCurve (start : ℚ) (signals : List Signal) : List ℚ :=
  equityCurveAux start signals

/-- Helper for `runningMax`. -/
def runningMaxAux (m : ℚ) : List ℚ → List ℚ
  | [] => []
  | x :: xs => max m x :: runningMaxAux (max m x) xs

/-- `np.maximum.accumulate`: running peaks of the equity curve. -/
def runningMax : List ℚ → List ℚ
  | [] => []
  | x :: xs => x :: runningMaxAux x xs

/-- `np.max((peak - equity_curve) / peak)`: elementwise drawdown then the
maximum.  A zero peak makes the NumPy division inf/NaN and `np.max`
propagates it, hence the `none` outcome. -/
def maxDrawdownOf (curve : List ℚ) : Option ℚ :=
  let dds := List.zipWith (fun p v => fdiv (some (p - v)) (some p)) (runningMax curve) curve
  if dds.any (fun o => o.isNone) then none
  else listMax (dds.filterMap id)

/-- Aggregate metrics of RiskManagement.calculate_portfolio_metrics.
`max_drawdown` is a NumPy float that can be NaN, hence the `Option`. -/
structure PortfolioMetrics where
  win_rate : ℚ
  avg_risk_reward : ℚ
  max_drawdown : Option ℚ
  total_trades : ℕ
deriving DecidableEq, Repr

/-- RiskManagement.calculate_portfolio_metrics: all-zero metrics on an
empty history; otherwise win rate, mean reward/risk over the signals with
both target and stop (skipping zero-risk ones), and max drawdown over the
replayed equity curve.  A signal carrying `take_profit` and `stop_loss`
but no `entry_price` makes the source raise a key error (`none`). -/
def calculate_portfolio_metrics (signals : List Signal) : Option PortfolioMetrics :=
  if signals.isEmpty then some ⟨0, 0, some 0, 0⟩
  else if signals.any (fun s => s.take_profit.isSome && s.stop_loss.isSome && s.entry_price.isNone) then
    none
  else
    let winning := (signals.filter (fun s => decide (s.result = some ("win")))).length
    let rrs := signals.filterMap fun s =>
      match s.take_profit, s.stop_loss, s.entry_price with
      | some tp, some sl, some e =>
        let risk := |e - sl|
        if 0 < risk then some (|tp - e| / risk) else none
      | _, _, _ => none
    let avg := (fmean rrs).getD 0
    let curve := equityCurve default_balance signals
    let mdd := if curve.isEmpty then some 0 else maxDrawdownOf curve
    some ⟨(winning : ℚ) / (signals.length : ℚ), avg, mdd, signals.length⟩

/-- Claim-side predicate (C7): how many values of a price window lie
within relative `threshold` of a level `L`, the tolerance anchored at `L`
itself — the claim's notion of a level "touched by k highs within 0.5%",
stated from the claim's words for comparison with the code's
anchor-relative clustering. -/
def touchCountAt (ps : List ℚ) (threshold : ℚ) (L : ℚ) : ℕ :=
  (ps.filter (fun x => decide (|x - L| / L ≤ threshold))).length

/-- A one-bar series satisfying the Bar invariant (concrete input). -/
def c2bars : List Bar := [⟨10, 11, 9, 10, 5⟩]

/-- Arbitrary quarterly levels for concrete evaluations. -/
def c2lv : QuarterlyLevels := ⟨0, 0, 0, 0⟩

/-- A 20-bar series of identical bars (concrete input). -/
def c3bars : List Bar := List.replicate 20 ⟨10, 11, 9, 10, 5⟩

/-- A 19-bar series of identical bars (concrete input). -/
def c3aBars : List Bar := List.replicate 19 ⟨10, 11, 9, 10, 5⟩

/-- Bar with a given close, used to build a series whose first 20 closes
sum to zero. -/
def mkC5 (c : ℚ) : Bar := ⟨1, 2, -2, c, 1⟩

/-- A 21-bar series whose first 20 closes alternate 1 and -1 (their SMA is
exactly 0) with a final close of 5 (concrete input). -/
def c5bars : List Bar :=
  [mkC5 1, mkC5 (-1), mkC5 1, mkC5 (-1), mkC5 1, mkC5 (-1), mkC5 1, mkC5 (-1),
   mkC5 1, mkC5 (-1), mkC5 1, mkC5 (-1), mkC5 1, mkC5 (-1), mkC5 1, mkC5 (-1),
   mkC5 1, mkC5 (-1), mkC5 1, mkC5 (-1), mkC5 5]

/-- A 6-bar series whose 6-bar relative price range is exactly 0.0051
(max high 10051, min low 10000) (concrete input). -/
def c6bars : List Bar :=
  [⟨10010, 10051, 10000, 10010, 10⟩, ⟨10010, 10010, 10000, 10010, 10⟩,
   ⟨10010, 10010, 10000, 10010, 10⟩, ⟨10010, 10010, 10000, 10010, 10⟩,
   ⟨10010, 10010, 10000, 10010, 10⟩, ⟨10010, 10010, 10000, 10010, 10⟩]

/-- Bar with a given high, for the liquidity-cluster window. -/
def mkC7 (h : ℚ) : Bar := ⟨60, h, 50, 60, 10⟩

/-- A 20-bar window whose highs are 100, 100, 100.4 and then 17 widely
separated values: the level 100.4 is touched by exactly 3 highs within
0.5% of itself, but only the level 100 anchors a recorded cluster
(concrete input). -/
def c7bars : List Bar :=
  [mkC7 100, mkC7 100, mkC7 (1004/10), mkC7 200, mkC7 210, mkC7 220, mkC7 230,
   mkC7 240, mkC7 250, mkC7 260, mkC7 270, mkC7 280, mkC7 290, mkC7 300,
   mkC7 310, mkC7 320, mkC7 330, mkC7 340, mkC7 350, mkC7 360]

/-- A 25-bar series with a sharp low undercut at bar -3, a strong bullish
final close, and final volume far above twice the 22-bar mean (concrete
input for the Turtle Soup long scenario). -/
def c4bars : List Bar :=
  List.replicate 22 ⟨100, 101, 99, 100, 10⟩ ++
    [⟨100, 101, 90, 100, 10⟩, ⟨100, 101, 99, 100, 10⟩, ⟨100, 103, 99, 102, 300⟩]

/-- A single winning signal with risk_amount 100 and risk_reward 2
(concrete input). -/
def c9sig : Signal := ⟨some ("win"), some 100, some 2, some 105, some 100, some 110⟩

/-- Additional concrete input for C5: a 21-bar series of identical bars
whose SMA denominators are nonzero. -/
def c5bars2 : List Bar := List.replicate 21 ⟨10, 11, 9, 10, 5⟩

lemma lastN_length (n : ℕ) (l : List α) : (lastN n l).length = min n l.length := by
  simp [lastN, List.length_drop]
  omega

lemma lastN_subset (n : ℕ) (l : List α) : lastN n l ⊆ l :=
  List.drop_subset _ l

lemma mem_of_getLast?_eq {l : List α} {b : α} (h : l.getLast? = some b) : b ∈ l :=
  List.mem_of_mem_getLast? (h ▸ Option.mem_some_iff.mpr rfl)

lemma le_foldl_max (xs : List ℚ) (a : ℚ) : a ≤ xs.foldl max a := by
  induction xs generalizing a with
  | nil => exact le_refl a
  | cons x xs ih => exact le_trans (le_max_left a x) (ih (max a x))

lemma mem_le_foldl_max (xs : List ℚ) (a x : ℚ) (hx : x ∈ xs) : x ≤ xs.foldl max a := by
  induction xs generalizing a with
  | nil => cases hx
  | cons y ys ih =>
    rcases List.mem_cons.mp hx with h | h
    · subst h
      exact le_trans (le_max_right a x) (le_foldl_max ys (max a x))
    · exact ih (max a y) h

lemma le_listMax {l : List ℚ} {x m : ℚ} (hx : x ∈ l) (hm : listMax l = some m) : x ≤ m := by
  cases l with
  | nil => cases hx
  | cons y ys =>
    have hmm : m = ys.foldl max y := by
      simpa [listMax] using hm.symm
    subst hmm
    rcases List.mem_cons.mp hx with h | h
    · subst h; exact le_foldl_max ys x
    · exact mem_le_foldl_max ys y x h

lemma foldl_min_le (xs : List ℚ) (a : ℚ) : xs.foldl min a ≤ a := by
  induction xs generalizing a with
  | nil => exact le_refl a
  | cons x xs ih => exact le_trans (ih (min a x)) (min_le_left a x)

lemma foldl_min_le_mem (xs : List ℚ) (a x : ℚ) (hx : x ∈ xs) : xs.foldl min a ≤ x := by
  induction xs generalizing a with
  | nil => cases hx
  | cons y ys ih =>
    rcases List.mem_cons.mp hx with h | h
    · subst h
      exact le_trans (foldl_min_le ys (min a x)) (min_le_right a x)
    · exact ih (min a y) h

lemma listMin_le {l : List ℚ} {x m : ℚ} (hx : x ∈ l) (hm : listMin l = some m) : m ≤ x := by
  cases l with
  | nil => cases hx
  | cons y ys =>
    have hmm : m = ys.foldl min y := by
      simpa [listMin] using hm.symm
    subst hmm
    rcases List.mem_cons.mp hx with h | h
    · subst h; exact foldl_min_le ys x
    · exact foldl_min_le_mem ys y x h

lemma trueRangesGo_length (prev : Bar) (l : List Bar) : (trueRangesGo prev l).length = l.length := by
  induction l generalizing prev with
  | nil => rfl
  | cons b rest ih => simp [trueRangesGo, ih]

lemma trueRanges_length (l : List Bar) : (trueRanges l).length = l.length := by
  cases l with
  | nil => rfl
  | cons b rest => simp [trueRanges, trueRangesGo_length]

lemma fle_some_right {a : Option ℚ} {t : ℚ} (h : fle a (some t) = true) :
    ∃ x, a = some x ∧ x ≤ t := by
  cases a with
  | none => simp [fle] at h
  | some x => exact ⟨x, rfl, by simpa [fle] using h⟩

lemma flt_some_right {a : Option ℚ} {t : ℚ} (h : flt a (some t) = true) :
    ∃ x, a = some x ∧ x < t := by
  cases a with
  | none => simp [flt] at h
  | some x => exact ⟨x, rfl, by simpa [flt] using h⟩

lemma getD_mem_take : ∀ (ps : List ℚ) (i : ℕ), i < ps.length → ps.getD i 0 ∈ ps.take (i + 1) := by
  intro ps
  induction ps with
  | nil => intro i h; simp at h
  | cons x t ih =>
    intro i h
    cases i with
    | zero => simp
    | succ j =>
      have : t.getD j 0 ∈ t.take (j + 1) := ih j (by simpa using Nat.lt_of_succ_lt_succ h)
      simpa using Or.inr this

lemma countFrom_index {ps : List ℚ} {θ : ℚ} {i : ℕ} (h : 3 ≤ countFrom ps θ i) :
    i + 2 < ps.length := by
  unfold countFrom at h
  have h1 := List.length_filter_le
    (fun x => decide (|x - ps.getD i 0| / ps.getD i 0 ≤ θ)) (ps.drop (i + 1))
  have h2 : (ps.drop (i + 1)).length = ps.length - (i + 1) := List.length_drop _ _
  omega

lemma mem_clusterLevels_of_count {ps : List ℚ} {θ : ℚ} {i : ℕ} (h : 3 ≤ countFrom ps θ i) :
    (ps.getD i 0, countFrom ps θ i) ∈ clusterLevels ps θ := by
  have hidx : i + 2 < ps.length := countFrom_index h
  refine List.mem_filterMap.mpr ⟨i, List.mem_range.mpr (by omega), ?_⟩
  simp [h]

lemma not_mem_clusterLevels {ps : List ℚ} {θ L : ℚ} (hθ : 0 ≤ θ)
    (h : touchCountAt ps θ L ≤ 2) : L ∉ (clusterLevels ps θ).map Prod.fst := by
  intro hmem
  rcases List.mem_map.mp hmem with ⟨p, hp, hfst⟩
  rcases List.mem_filterMap.mp hp with ⟨i, _, hfi⟩
  by_cases hc : 3 ≤ countFrom ps θ i
  · simp only [hc, if_true] at hfi
    have hpv : p = (ps.getD i 0, countFrom ps θ i) := by
      exact (Option.some.injEq _ _).mp hfi |>.symm
    have hL : ps.getD i 0 = L := by rw [hpv] at hfst; exact hfst
    have hilen : i < ps.length := by
      have := countFrom_index hc
      omega
    unfold countFrom at hc
    rw [hL] at hc
    have hdrop : 2 ≤ ((ps.drop (i + 1)).filter
        (fun x => decide (|x - L| / L ≤ θ))).length := by
      omega
    have hmemtake : L ∈ (ps.take (i + 1)).filter (fun x => decide (|x - L| / L ≤ θ)) := by
      refine List.mem_filter.mpr ⟨hL ▸ getD_mem_take ps i hilen, ?_⟩
      simp [hθ]
    have htake : 1 ≤ ((ps.take (i + 1)).filter (fun x => decide (|x - L| / L ≤ θ))).length :=
      List.length_pos_of_mem hmemtake
    have hsplit : touchCountAt ps θ L =
        ((ps.take (i + 1)).filter (fun x => decide (|x - L| / L ≤ θ))).length +
        ((ps.drop (i + 1)).filter (fun x => decide (|x - L| / L ≤ θ))).length := by
      unfold touchCountAt
      conv_lhs => rw [← List.take_append_drop (i + 1) ps]
      rw [List.filter_append, List.length_append]
    omega
  · simp [hc] at hfi

/-- C1 counterexample: with entry 100 and ATR 2 the lock is active at all
of 103, 105, 104, yet the successive stops are 101, 103, 102 — the third
call, at a lower current price, returns a stop below the second call's
stop, so the sequence is not non-decreasing as the claim states. -/
theorem C1_counterexample :
    calculate_trailing_stop 100 103 ("long") 2 = 101
    ∧ calculate_trailing_stop 100 105 ("long") 2 = 103
    ∧ calculate_trailing_stop 100 104 ("long") 2 = 102
    ∧ (104 : ℚ) - 100 ≥ 2
    ∧ ¬ (calculate_trailing_stop 100 105 ("long") 2 ≤ calculate_trailing_stop 100 104 ("long") 2) := by
  decide

/-- C1 (amended): calculate_trailing_stop is stateless; once the
breakeven lock is active (profit at least 1×ATR) the returned long stop
never falls below the entry, and it is monotone in currentPrice — so the
ratchet holds only across calls with non-decreasing current prices, while
a later call at a lower (still locked) price may return a lower stop. -/
theorem C1_amended_trailing_stop (entry_price atr c1 c2 : ℚ)
    (h1 : c1 - entry_price ≥ atr) (h2 : c2 - entry_price ≥ atr) :
    entry_price ≤ calculate_trailing_stop entry_price c1 ("long") atr
    ∧ (c1 ≤ c2 →
        calculate_trailing_stop entry_price c1 ("long") atr
          ≤ calculate_trailing_stop entry_price c2 ("long") atr) := by
  have e1 : calculate_trailing_stop entry_price c1 ("long") atr = max entry_price (c1 - atr) := by
    unfold calculate_trailing_stop
    rw [if_pos rfl, if_pos h1]
  have e2 : calculate_trailing_stop entry_price c2 ("long") atr = max entry_price (c2 - atr) := by
    unfold calculate_trailing_stop
    rw [if_pos rfl, if_pos h2]
  constructor
  · rw [e1]; exact le_max_left _ _
  · intro hc
    rw [e1, e2]
    exact max_le_max (le_refl _) (by linarith)

/-- Witness for C1 (amended) at entry 100, ATR 2, prices 103 and 105. -/
theorem C1_amended_witness :
    (100 : ℚ) ≤ calculate_trailing_stop 100 103 ("long") 2
    ∧ calculate_trailing_stop 100 103 ("long") 2 ≤ calculate_trailing_stop 100 105 ("long") 2 := by
  have h := C1_amended_trailing_stop 100 2 103 105 (by norm_num) (by norm_num)
  exact ⟨h.1, h.2 (by norm_num)⟩

/-- C8: calculate_position_size clamps the effective risk percent at
0.02 — risk 0.05 sizes exactly like risk 0.02 — and any returned result
has risk_amount = balance * min(riskPercent, 0.02) and position_size =
risk_amount / (|entry - stop| * pipValue[asset]). -/
theorem C8_position_size_clamped (asset : String) (e s b : ℚ) :
    calculate_position_size asset e s b (5/100) = calculate_position_size asset e s b (2/100)
    ∧ ∀ (rp : ℚ) (r : PositionSizeResult), calculate_position_size asset e s b rp = some r →
        r.risk_amount = b * min rp (2/100)
        ∧ ∀ pv, List.lookup asset pip_values = some pv →
            r.position_size = r.risk_amount / (|e - s| * pv) := by
  constructor
  · unfold calculate_position_size
    rw [min_eq_right (by norm_num : (2/100 : ℚ) ≤ 5/100), min_self]
  · intro rp r hr
    unfold calculate_position_size at hr
    cases hl : List.lookup asset pip_values with
    | none => rw [hl] at hr; cases hr
    | some pv0 =>
      rw [hl] at hr
      simp only at hr
      by_cases hz : |e - s| * pv0 = 0
      · rw [if_pos hz] at hr; cases hr
      · rw [if_neg hz] at hr
        have hrv : r = ⟨(b * min rp (2/100)) / (|e - s| * pv0), b * min rp (2/100), |e - s|, pv0⟩ :=
          ((Option.some.injEq _ _).mp hr).symm
        subst hrv
        refine ⟨rfl, ?_⟩
        intro pv hpv
        have hpp : pv = pv0 := ((Option.some.injEq _ _).mp hpv).symm
        subst hpp
        rfl

/-- Witness for C8: XAUUSD, entry 105, stop 100, balance 10000 — a 5%
request equals the 2% computation, whose result has risk_amount 200. -/
theorem C8_witness :
    calculate_position_size ("XAUUSD") 105 100 10000 (5/100)
      = calculate_position_size ("XAUUSD") 105 100 10000 (2/100)
    ∧ (⟨4000, 200, 5, 1/100⟩ : PositionSizeResult).risk_amount = 10000 * min (2/100) (2/100) := by
  refine ⟨(C8_position_size_clamped ("XAUUSD") 105 100 10000).1, ?_⟩
  exact ((C8_position_size_clamped ("XAUUSD") 105 100 10000).2 (2/100)
    ⟨4000, 200, 5, 1/100⟩ (by decide)).1

/-- C10 counterexample: XAUUSD is a configured pip-value key, yet with
entry = stop the sizing computation fails (float division by zero), so
"succeeds iff the asset is configured" is false as stated. -/
theorem C10_counterexample :
    List.lookup ("XAUUSD") pip_values = some (1/100)
    ∧ calculate_position_size ("XAUUSD") 100 100 10000 (1/100) = none := by
  constructor
  · decide
  · decide

/-- C10 (amended): calculate_position_size returns a sizing result iff the
asset is a configured pip-value key AND entry ≠ stop (a zero stop distance
fails with a division error, since both configured pip values are
nonzero); for any unconfigured asset the lookup itself fails and no
default pip value is substituted. -/
theorem C10_amended_position_size_domain (asset : String) (e s b rp : ℚ) :
    ((calculate_position_size asset e s b rp).isSome ↔
      (List.lookup asset pip_values).isSome ∧ e ≠ s)
    ∧ (List.lookup asset pip_values = none → calculate_position_size asset e s b rp = none) := by
  have hpv : ∀ pv, List.lookup asset pip_values = some pv → pv ≠ 0 := by
    intro pv h
    by_cases h1 : asset = ("XAUUSD")
    · subst h1
      simp [pip_values, List.lookup] at h
      rw [← h]; norm_num
    · by_cases h2 : asset = ("NASDAQ")
      · subst h2
        simp [pip_values, List.lookup] at h
        rw [← h]; norm_num
      · have hb1 : (asset == ("XAUUSD")) = false := beq_eq_false_iff_ne.mpr h1
        have hb2 : (asset == ("NASDAQ")) = false := beq_eq_false_iff_ne.mpr h2
        simp [pip_values, List.lookup, hb1, hb2] at h
  cases hl : List.lookup asset pip_values with
  | none =>
    constructor
    · unfold calculate_position_size
      rw [hl]
      simp
    · intro _
      unfold calculate_position_size
      rw [hl]
  | some pv =>
    have hpv0 : pv ≠ 0 := hpv pv hl
    constructor
    · unfold calculate_position_size
      rw [hl]
      simp only
      by_cases he : e = s
      · subst he
        rw [if_pos (by simp)]
        simp
      · have hz : |e - s| * pv ≠ 0 :=
          mul_ne_zero (by simpa [abs_eq_zero, sub_eq_zero] using he) hpv0
        rw [if_neg hz]
        simp [he]
    · intro hnone
      exact Option.noConfusion hnone

/-- Witness for C10 (amended): an unconfigured asset fails the lookup and
yields no sizing result. -/
theorem C10_witness :
    calculate_position_size ("EURUSD") 105 100 10000 (1/100) = none :=
  (C10_amended_position_size_domain ("EURUSD") 105 100 10000 (1/100)).2 (by decide)

/-- C3 counterexample: a 20-bar series — fewer than 21 bars — on which
calculate_atr already returns the ordinary number 2, contradicting "ATR
requires at least period+1 bars and with fewer is never an ordinary
number" (the first true range falls back to high - low, so period bars
suffice). -/
theorem C3_counterexample :
    c3bars.length = 20 ∧ calculate_atr c3bars = some 2 := by
  constructor
  · decide
  · decide

/-- C3 (amended): calculate_atr is NaN for series of fewer than 20 bars
(period bars already suffice for a number, not period+1), and
calculate_sma_slope reports no ordinary number for series of 2 to 20 bars
(NaN) while returning the numeric 0 for series shorter than 2 bars. -/
theorem C3_amended_insufficient_data (bars : List Bar) :
    (bars.length < 20 → calculate_atr bars = none)
    ∧ (2 ≤ bars.length → bars.length ≤ 20 → calculate_sma_slope bars 20 = none)
    ∧ (bars.length < 2 → calculate_sma_slope bars 20 = some 0) := by
  refine ⟨?_, ?_, ?_⟩
  · intro h
    unfold calculate_atr rollingMeanLast
    rw [trueRanges_length]
    rw [if_pos h]
  · intro h2 h20
    have hprev : smaPrevOf (bars.map Bar.close) 20 = none := by
      unfold smaPrevOf rollingMeanLast
      rw [if_pos]
      rw [List.length_dropLast, List.length_map]
      omega
    simp only [calculate_sma_slope]
    rw [List.length_map, if_neg (by omega), hprev]
    cases smaLastOf (bars.map Bar.close) 20 <;> rfl
  · intro h
    simp only [calculate_sma_slope]
    rw [List.length_map, if_pos h]

/-- Witness for C3 (amended) at a 19-bar, a 20-bar and a 1-bar series. -/
theorem C3_witness :
    calculate_atr c3aBars = none
    ∧ calculate_sma_slope c3bars 20 = none
    ∧ calculate_sma_slope c2bars 20 = some 0 :=
  ⟨(C3_amended_insufficient_data c3aBars).1 (by decide),
   (C3_amended_insufficient_data c3bars).2.1 (by decide) (by decide),
   (C3_amended_insufficient_data c2bars).2.2 (by decide)⟩

/-- C5 counterexample: a 21-bar series whose previous SMA value is exactly
0 — the code does not special-case the degenerate denominator: the
division propagates NaN/inf (no ordinary number, and in particular not a
neutral 0). -/
theorem C5_counterexample :
    smaPrevOf (c5bars.map Bar.close) 20 = some 0
    ∧ calculate_sma_slope c5bars 20 = none := by
  constructor
  · decide
  · decide

/-- C5 (amended): calculate_sma_slope returns (last SMA - previous SMA) /
previous SMA when both SMA values exist and the previous one is nonzero,
returns 0 when the series has fewer than 2 rows, and when the previous SMA
is zero the division propagates inf/NaN — it is not special-cased to a
neutral result. -/
theorem C5_amended_sma_slope (bars : List Bar) :
    (bars.length < 2 → calculate_sma_slope bars 20 = some 0)
    ∧ (∀ a d, smaLastOf (bars.map Bar.close) 20 = some a →
        smaPrevOf (bars.map Bar.close) 20 = some d → d ≠ 0 →
        calculate_sma_slope bars 20 = some ((a - d) / d))
    ∧ (smaPrevOf (bars.map Bar.close) 20 = some 0 → calculate_sma_slope bars 20 = none) := by
  have hlen : ∀ d : ℚ, smaPrevOf (bars.map Bar.close) 20 = some d → 21 ≤ bars.length := by
    intro d hd
    unfold smaPrevOf rollingMeanLast at hd
    by_cases hlt : (bars.map Bar.close).dropLast.length < 20
    · rw [if_pos hlt] at hd; cases hd
    · rw [List.length_dropLast, List.length_map] at hlt
      omega
  refine ⟨?_, ?_, ?_⟩
  · intro h
    simp only [calculate_sma_slope]
    rw [List.length_map, if_pos h]
  · intro a d ha hd hdz
    have h21 := hlen d hd
    simp only [calculate_sma_slope]
    rw [List.length_map, if_neg (by omega), ha, hd]
    simp only [fsub, fdiv]
    rw [if_neg hdz]
  · intro hd
    have h21 := hlen 0 hd
    simp only [calculate_sma_slope]
    rw [List.length_map, if_neg (by omega), hd]
    cases smaLastOf (bars.map Bar.close) 20 with
    | none => rfl
    | some a => simp [fsub, fdiv]

/-- Witness for C5 (amended): a 21-bar constant series has slope
(10 - 10) / 10 = 0, and the zero-denominator series yields NaN. -/
theorem C5_witness :
    calculate_sma_slope c5bars2 20 = some ((10 - 10) / 10)
    ∧ calculate_sma_slope c5bars 20 = none :=
  ⟨(C5_amended_sma_slope c5bars2).2.1 10 10 (by decide) (by decide) (by norm_num),
   (C5_amended_sma_slope c5bars).2.2 (by decide)⟩

/-- C9: calculate_portfolio_metrics returns the all-zero record on the
empty list; and on a single winning signal with risk_amount 100 and
risk_reward 2 the replayed equity curve starts from the default balance
and consists of exactly one point 200 above it, and the reported
max_drawdown is 0. -/
theorem C9_portfolio_metrics :
    calculate_portfolio_metrics [] = some ⟨0, 0, some 0, 0⟩
    ∧ ∀ (s : Signal), s.result = some ("win") → s.risk_amount = some 100 →
        s.risk_reward = some 2 →
        equityCurve default_balance [s] = [default_balance + 200]
        ∧ ∀ m, calculate_portfolio_metrics [s] = some m → m.max_drawdown = some 0 := by
  constructor
  · rfl
  · intro s hres hra hrr
    have hcurve : equityCurve default_balance [s] = [default_balance + 200] := by
      unfold equityCurve equityCurveAux
      rw [hres, hra, hrr]
      simp only [Option.getD_some, if_pos rfl]
      norm_num [default_balance]
      rfl
    refine ⟨hcurve, ?_⟩
    intro m hm
    unfold calculate_portfolio_metrics at hm
    rw [if_neg (by simp)] at hm
    by_cases hk : [s].any (fun s => s.take_profit.isSome && s.stop_loss.isSome && s.entry_price.isNone)
    · rw [if_pos hk] at hm
      cases hm
    · rw [if_neg hk] at hm
      simp only [hcurve] at hm
      have hmdd : maxDrawdownOf [default_balance + 200] = some 0 := by
        unfold maxDrawdownOf runningMax runningMaxAux
        have hnz : default_balance + 200 ≠ 0 := by norm_num [default_balance]
        simp [fdiv, hnz, listMax]
      rw [if_neg (by simp), hmdd] at hm
      have := ((Option.some.injEq _ _).mp hm)
      rw [← this]

/-- Witness for C9 at the concrete winning signal. -/
theorem C9_witness :
    equityCurve default_balance [c9sig] = [default_balance + 200]
    ∧ (⟨1, 1, some 0, 1⟩ : PortfolioMetrics).max_drawdown = some 0 := by
  have h := C9_portfolio_metrics.2 c9sig (by decide) (by decide) (by decide)
  exact ⟨h.1, h.2 ⟨1, 1, some 0, 1⟩ (by decide)⟩

/-- C6: crt fires only under its consolidation gate — any series whose
6-bar relative price range exceeds 0.005 (in particular one where it
equals 0.0051) yields no CRT candidate, and any fired CRT candidate comes
with a price range at most 0.005 and a volume fraction below 0.5. -/
theorem C6_crt_thresholds (bars : List Bar) :
    (∀ r, priceRangeOf bars = some r → 5/1000 < r → crt bars = none)
    ∧ (∀ c, crt bars = some c →
        (∃ r, priceRangeOf bars = some r ∧ r ≤ 5/1000)
        ∧ (∃ v, volumeFracOf bars = some v ∧ v < 1/2)) := by
  constructor
  · intro r hr hgt
    have hgate : crtGate bars = false := by
      unfold crtGate
      rw [hr]
      simp only [fle, Bool.and_eq_false_iff]
      left
      simpa using not_le.mpr hgt
    unfold crt
    rw [hgate]
    rfl
  · intro c hc
    have hgate : crtGate bars = true := by
      cases hg : crtGate bars with
      | true => rfl
      | false =>
        unfold crt at hc
        rw [hg] at hc
        cases hc
    unfold crtGate at hgate
    rw [Bool.and_eq_true] at hgate
    obtain ⟨h1, h2⟩ := hgate
    obtain ⟨r, hr, hrle⟩ := fle_some_right h1
    obtain ⟨v, hv, hvlt⟩ := flt_some_right h2
    exact ⟨⟨r, hr, hrle⟩, ⟨v, hv, hvlt⟩⟩

/-- Witness for C6 at a 6-bar series with price range exactly 0.0051. -/
theorem C6_witness : crt c6bars = none :=
  (C6_crt_thresholds c6bars).1 (51/10000) (by decide) (by norm_num)

/-- C2: under the Bar invariant (positive prices, low ≤ close ≤ high) crt
can never fire — its long breakout needs the last close strictly above the
6-bar maximum high, which contains the last bar's own high, and its short
breakout needs the last close strictly below the 6-bar minimum low — so
generate_entries never carries a "crt" key. -/
theorem C2_crt_never_fires (bars : List Bar) (lv : QuarterlyLevels)
    (hinv : ∀ b ∈ bars, 0 < b.low ∧ b.low ≤ b.close ∧ b.close ≤ b.high) :
    crt bars = none
    ∧ ∀ es, generate_entries bars lv = some es → ∀ p ∈ es, p.1 ≠ ("crt") := by
  have hcrt : crt bars = none := by
    unfold crt
    cases hg : crtGate bars with
    | false => rfl
    | true =>
      simp only [if_true]
      cases hmax : listMax ((lastN 6 bars).map Bar.high) with
      | none => rfl
      | some range_high =>
        cases hmin : listMin ((lastN 6 bars).map Bar.low) with
        | none => rfl
        | some range_low =>
          cases hlast : (lastN 6 bars).getLast? with
          | none => rfl
          | some b =>
            have hbr : b ∈ lastN 6 bars := mem_of_getLast?_eq hlast
            have hbmem : b ∈ bars := lastN_subset 6 bars hbr
            obtain ⟨hpos, hlc, hch⟩ := hinv b hbmem
            have hhigh : b.high ≤ range_high :=
              le_listMax (List.mem_map_of_mem Bar.high hbr) hmax
            have hlow : range_low ≤ b.low :=
              listMin_le (List.mem_map_of_mem Bar.low hbr) hmin
            have h1 : ¬ (range_high < b.close) := by linarith
            have h2 : ¬ (b.close < range_low) := by linarith
            simp [h1, h2]
  refine ⟨hcrt, ?_⟩
  intro es hes p hp
  unfold generate_entries at hes
  by_cases hne : bars.isEmpty
  · rw [if_pos hne] at hes
    cases hes
  · rw [if_neg hne] at hes
    have hes' := (Option.some.injEq _ _).mp hes
    subst hes'
    rcases List.mem_append.mp hp with h12 | h3
    · rcases List.mem_append.mp h12 with h1 | h2
      · by_cases hv : is_volatile bars
        · rw [if_pos hv] at h1
          rcases List.mem_map.mp h1 with ⟨c, _, rfl⟩
          simp
        · rw [if_neg hv] at h1
          cases h1
      · rw [hcrt] at h2
        cases h2
    · rcases List.mem_map.mp h3 with ⟨c, _, rfl⟩
      simp

/-- Witness for C2 at a one-bar series satisfying the Bar invariant. -/
theorem C2_witness :
    crt c2bars = none ∧ generate_entries c2bars c2lv = some [] := by
  refine ⟨(C2_crt_never_fires c2bars c2lv (by decide)).1, by decide⟩

/-- C4: on a series of at least 25 bars, turtle_soup returns a long
candidate exactly under the three bullish conditions (bar[-3]'s low below
the minimum low of the first 19 bars of the 22-bar tail, a last bar
closing above its open, and last-bar volume above twice the tail's mean
volume), and when they hold the candidate carries entry = last close,
stop = bar[-3] low - 1.5×ATR, take-profit = the nearest liquidity pool
above the entry, and invalidation = bar[-3]'s low. -/
theorem C4_turtle_soup_long (bars : List Bar) (b : Bar)
    (hlen : 25 ≤ bars.length) (hb : (lastN 22 bars).getLast? = some b) :
    (bullishTurtle bars = true →
      turtle_soup bars = some
        ⟨("turtle_soup"), ("long"), b.close,
         fsub (((lastN 22 bars).map Bar.low).get? ((lastN 22 bars).length - 3))
           (fmul (some (3/2)) (calculate_atr bars)),
         find_nearest_liquidity_pool bars b.close ("up"),
         ((lastN 22 bars).map Bar.low).getD ((lastN 22 bars).length - 3) 0⟩)
    ∧ (∀ c, turtle_soup bars = some c → c.direction = ("long") →
        bullishTurtle bars = true) := by
  have hr : (lastN 22 bars).length = 22 := by
    rw [lastN_length]
    omega
  constructor
  · intro hcond
    unfold turtle_soup
    rw [if_neg (by rw [hr]; norm_num), if_pos hcond, hb]
  · intro c hc hdir
    cases hbull : bullishTurtle bars with
    | true => rfl
    | false =>
      exfalso
      unfold turtle_soup at hc
      rw [if_neg (by rw [hr]; norm_num), hbull] at hc
      simp only [Bool.false_eq_true, if_false] at hc
      cases hbear : bearishTurtle bars with
      | false =>
        rw [hbear] at hc
        simp at hc
      | true =>
        rw [hbear] at hc
        simp only [if_true] at hc
        cases hlast : (lastN 22 bars).getLast? with
        | none => rw [hlast] at hc; cases hc
        | some b' =>
          rw [hlast] at hc
          have hcv := (Option.some.injEq _ _).mp hc
          rw [← hcv] at hdir
          exact absurd hdir (by simp)

set_option maxRecDepth 100000 in
/-- Witness for C4 at the concrete 25-bar undercut series: the candidate
is fully evaluated (ATR 51/20, stop 90 - 1.5·(51/20) = 3447/40, no pool
above 102 so the take-profit defaults to 102·1.02 = 2601/25). -/
theorem C4_witness :
    turtle_soup c4bars = some ⟨("turtle_soup"), ("long"), 102, some (3447/40), 2601/25, 90⟩ := by
  have h := (C4_turtle_soup_long c4bars ⟨100, 103, 99, 102, 300⟩ (by decide) (by decide)).1
    (by decide)
  exact h.trans (by decide)

set_option maxRecDepth 100000 in
/-- C7 counterexample: in the concrete 20-bar window the level 100.4 is
touched by exactly 3 highs within 0.5% of itself (100, 100, 100.4), yet it
never appears among the recorded cluster prices — the code anchors the
tolerance at the earlier bar, and only the level 100 is recorded. -/
theorem C7_counterexample :
    touchCountAt ((lastN 20 c7bars).map Bar.high) (5/1000) (1004/10) = 3
    ∧ (1004/10) ∈ (lastN 20 c7bars).map Bar.high
    ∧ (1004/10) ∉ ((find_liquidity_pools c7bars 20 (5/1000)).highs.map Prod.fst) := by
  refine ⟨by decide, by decide, by decide⟩

/-- C7 (amended): a bar's high (or low) level is recorded, with its
count, whenever its anchor-relative cluster — itself plus the later bars
within 0.5% of it, tolerance measured from the anchor — reaches 3; and a
level touched by at most 2 window values within 0.5% of itself never
appears among the recorded prices.  The count-3 boundary therefore holds
anchored at the earliest touch, not for an arbitrary touched level, and
detection is not symmetric under reversing the scan order. -/
theorem C7_amended_clusters (bars : List Bar) (i : ℕ) (L : ℚ) :
    (3 ≤ countFrom ((lastN 20 bars).map Bar.high) (5/1000) i →
      (((lastN 20 bars).map Bar.high).getD i 0,
        countFrom ((lastN 20 bars).map Bar.high) (5/1000) i)
        ∈ (find_liquidity_pools bars 20 (5/1000)).highs)
    ∧ (touchCountAt ((lastN 20 bars).map Bar.high) (5/1000) L ≤ 2 →
        L ∉ ((find_liquidity_pools bars 20 (5/1000)).highs.map Prod.fst))
    ∧ (3 ≤ countFrom ((lastN 20 bars).map Bar.low) (5/1000) i →
      (((lastN 20 bars).map Bar.low).getD i 0,
        countFrom ((lastN 20 bars).map Bar.low) (5/1000) i)
        ∈ (find_liquidity_pools bars 20 (5/1000)).lows)
    ∧ (touchCountAt ((lastN 20 bars).map Bar.low) (5/1000) L ≤ 2 →
        L ∉ ((find_liquidity_pools bars 20 (5/1000)).lows.map Prod.fst)) :=
  ⟨fun h => mem_clusterLevels_of_count h,
   fun h => not_mem_clusterLevels (by norm_num) h,
   fun h => mem_clusterLevels_of_count h,
   fun h => not_mem_clusterLevels (by norm_num) h⟩

set_option maxRecDepth 100000 in
/-- Witness for C7 (amended): in the concrete window, anchor 0 (level 100)
has cluster size 3 and is recorded, and the level 200, touched only by
itself, is never recorded. -/
theorem C7_witness :
    (((lastN 20 c7bars).map Bar.high).getD 0 0,
      countFrom ((lastN 20 c7bars).map Bar.high) (5/1000) 0)
      ∈ (find_liquidity_pools c7bars 20 (5/1000)).highs
    ∧ (200 : ℚ) ∉ ((find_liquidity_pools c7bars 20 (5/1000)).highs.map Prod.fst) :=
  ⟨(C7_amended_clusters c7bars 0 200).1 (by decide),
   (C7_amended_clusters c7bars 0 200).2.1 (by decide)⟩
